import Mathlib

/-!
Shallow embedding of `DrmAtomicStateManager.cpp` (drm_hwcomposer atomic
commit state manager).  Kernel calls and property setters are modelled by
an environment record `Env` that fixes the outcome of each external call;
`CommitFrame` is then a pure function of the environment, the engine state
and the commit arguments, returning the status code, the new engine state,
a trace of the externally visible events (fence wait, prior-frame cleanup,
kernel commit with its flags and property set) and the processed arguments
(the source mutates `args` in place).  Machine `int` counters are modelled
as `Int`; fences, planes, framebuffers and blobs are identified by `Nat`
handles.
-/

namespace DrmAtomic

/-- Payload of one layer in a composition plan (framebuffer handle). -/
structure LayerData where
  fb : Nat
deriving DecidableEq

/-- One entry of a composition plan: plane handle, layer, z order. -/
structure Joining where
  plane : Nat
  layer : LayerData
  z_pos : Nat
deriving DecidableEq

/-- A composition plan, ordered bottom-most first. -/
structure DrmKmsPlan where
  plan : List Joining
deriving DecidableEq

/-- The commit request (`AtomicCommitArgs`): optional independent changes. -/
structure AtomicCommitArgs where
  active : Option Bool := none
  display_mode : Option Nat := none
  color_matrix : Option Nat := none
  composition : Option DrmKmsPlan := none
  test_only : Bool := false
  out_fence : Option Nat := none
deriving DecidableEq

/-- Frame state snapshot owned by one committed frame (`KmsState`). -/
structure KmsFrameState where
  used_planes : List Nat := []
  used_framebuffers : List Nat := []
  mode_blob : Option Nat := none
  ctm_blob : Option Nat := none
  crtc_active_state : Bool := false
deriving DecidableEq

/-- The mutable engine state of `DrmAtomicStateManager`. -/
structure EngineState where
  active_frame_state : KmsFrameState := {}
  staged_frame_state : KmsFrameState := {}
  last_present_fence : Option Nat := none
  frames_staged : Int := 0
  frames_tracked : Int := 0
deriving DecidableEq

/-- Outcomes of the external (kernel / drm helper) calls the code makes. -/
structure Env where
  allocPsetOk : Bool
  outFenceSetOk : Bool
  activeSetOk : Bool
  crtcIdSetOk : Bool
  modeBlobOk : Bool
  modeSetOk : Bool
  hasCtmProperty : Bool
  ctmBlobOk : Bool
  ctmSetOk : Bool
  planeSetOk : Nat → Bool
  planeDisableOk : Nat → Bool
  syncWaitRet : Int
  commitRet : Int
  testCommitRet : Int
  outFenceFd : Nat

/-- One property-set entry of the atomic transaction. -/
inductive PsetOp where
  | outFencePtr : PsetOp
  | active (v : Bool) : PsetOp
  | crtcId : PsetOp
  | modeBlob (m : Nat) : PsetOp
  | ctmBlob (c : Nat) : PsetOp
  | planeState (plane fb z : Nat) (mostBottom : Bool) : PsetOp
  | planeDisable (plane : Nat) : PsetOp
deriving DecidableEq

/-- Externally visible events of one `CommitFrame` call, in order. -/
inductive Event where
  | syncWait (fence : Nat) : Event
  | cleanup : Event
  | kernelCommit (pset : List PsetOp) (testOnly nonblock : Bool) : Event
deriving DecidableEq

/-- Modelled from the spec: `HasInputs` lives in the missing header
`DrmAtomicStateManager.h`; the request has inputs when any of the optional
change fields (active flag, display mode, color transform, composition) is
present. -/
def HasInputs (a : AtomicCommitArgs) : Bool :=
  a.active.isSome || a.display_mode.isSome || a.composition.isSome ||
    a.color_matrix.isSome

/-- Modelled from the spec: `NewFrameState` lives in the missing header.
Unset fields carry forward the previous (active) state's values: the new
state starts from the active state's used-plane set and active flag, with
no blobs and no framebuffer references of its own. -/
def NewFrameState (st : EngineState) : KmsFrameState :=
  { used_planes := st.active_frame_state.used_planes
    used_framebuffers := []
    mode_blob := none
    ctm_blob := none
    crtc_active_state := st.active_frame_state.crtc_active_state }

/-- Lines 54-57: drop an active flag identical to the current one. -/
def dropSameActive (st : EngineState) (a : AtomicCommitArgs) : AtomicCommitArgs :=
  if a.active = some st.active_frame_state.crtc_active_state then
    { a with active := none }
  else a

/-- Lines 64-67: force activation while the display is inactive. -/
def forceActivate (st : EngineState) (a : AtomicCommitArgs) : AtomicCommitArgs :=
  if st.active_frame_state.crtc_active_state = false then
    { a with active := some true }
  else a

/-- The argument record as `CommitFrame` has rewritten it by line 68. -/
def processedArgs (st : EngineState) (a : AtomicCommitArgs) : AtomicCommitArgs :=
  forceActivate st (dropSameActive st a)

/-- Lines 86-95: the active flag / crtc id properties and the nonblock
decision. -/
def activeOps (env : Env) (a : AtomicCommitArgs) (nfs : KmsFrameState) :
    Except Int (List PsetOp × KmsFrameState × Bool) :=
  match a.active with
  | none => .ok ([], nfs, true)
  | some v =>
    if env.activeSetOk then
      if env.crtcIdSetOk then
        .ok ([PsetOp.active v, PsetOp.crtcId],
             { nfs with crtc_active_state := v }, false)
      else .error (-22)
    else .error (-22)

/-- Lines 97-108: mode blob creation and the mode property. -/
def modeOps (env : Env) (a : AtomicCommitArgs) (nfs : KmsFrameState) :
    Except Int (List PsetOp × KmsFrameState) :=
  match a.display_mode with
  | none => .ok ([], nfs)
  | some m =>
    if env.modeBlobOk then
      if env.modeSetOk then
        .ok ([PsetOp.modeBlob m], { nfs with mode_blob := some m })
      else .error (-22)
    else .error (-22)

/-- Lines 110-122: the color transform blob, only when the CRTC exposes a
CTM property. -/
def ctmOps (env : Env) (a : AtomicCommitArgs) (nfs : KmsFrameState) :
    Except Int (List PsetOp × KmsFrameState) :=
  match a.color_matrix with
  | none => .ok ([], nfs)
  | some c =>
    if env.hasCtmProperty then
      if env.ctmBlobOk then
        if env.ctmSetOk then
          .ok ([PsetOp.ctmBlob c], { nfs with ctm_blob := some c })
        else .error (-22)
      else .error (-22)
    else .ok ([], nfs)

/-- Lines 129-147: walk the plan, record used framebuffers and planes,
remove re-used planes from the unused list, bind each plane. -/
def bindPlanes (env : Env) :
    List Joining → List PsetOp → KmsFrameState → List Nat → Bool →
      Except Int (List PsetOp × KmsFrameState × List Nat)
  | [], pset, nfs, unused, _ => .ok (pset, nfs, unused)
  | j :: rest, pset, nfs, unused, mostBottom =>
    let nfs := { nfs with
      used_framebuffers := nfs.used_framebuffers ++ [j.layer.fb]
      used_planes := nfs.used_planes ++ [j.plane] }
    let unused := unused.filter (fun q => q != j.plane)
    if env.planeSetOk j.plane then
      bindPlanes env rest
        (pset ++ [PsetOp.planeState j.plane j.layer.fb j.z_pos mostBottom])
        nfs unused false
    else .error (-22)

/-- Lines 150-156: disable every plane left in the unused list. -/
def disablePlanes (env : Env) : List Nat → List PsetOp → Except Int (List PsetOp)
  | [], pset => .ok pset
  | p :: rest, pset =>
    if env.planeDisableOk p then
      disablePlanes env rest (pset ++ [PsetOp.planeDisable p])
    else .error (-22)

/-- Lines 69-156: build the atomic property set, the prospective frame
state and the nonblock decision, or fail. -/
def buildPset (env : Env) (st : EngineState) (a : AtomicCommitArgs) :
    Except Int (List PsetOp × KmsFrameState × Bool) :=
  if env.allocPsetOk = false then .error (-12)
  else if env.outFenceSetOk = false then .error (-22)
  else
    match activeOps env a (NewFrameState st) with
    | .error e => .error e
    | .ok (aops, nfs1, nonblock) =>
      match modeOps env a nfs1 with
      | .error e => .error e
      | .ok (mops, nfs2) =>
        match ctmOps env a nfs2 with
        | .error e => .error e
        | .ok (cops, nfs3) =>
          let pset := PsetOp.outFencePtr :: (aops ++ mops ++ cops)
          match a.composition with
          | none => .ok (pset, nfs3, nonblock)
          | some comp =>
            match bindPlanes env comp.plan pset
                { nfs3 with used_planes := [] } nfs3.used_planes true with
            | .error e => .error e
            | .ok (pset2, nfs4, unused) =>
              match disablePlanes env unused pset2 with
              | .error e => .error e
              | .ok pset3 => .ok (pset3, nfs4, nonblock)

/-- Lines 258-267: promote the staged frame state, clear the fence, bump
the tracked counter. -/
def CleanupPriorFrameResources (st : EngineState) : EngineState :=
  { st with
    frames_tracked := st.frames_tracked + 1
    active_frame_state := st.staged_frame_state
    last_present_fence := none }

/-- The assertion guard of `CleanupPriorFrameResources` (lines 259-260). -/
def cleanupOk (st : EngineState) : Bool :=
  st.frames_staged - st.frames_tracked == 1 && st.last_present_fence.isSome

/-- Result of one `CommitFrame` call. -/
structure CommitResult where
  ret : Int
  state : EngineState
  trace : List Event
  argsOut : AtomicCommitArgs
deriving DecidableEq

/-- Lines 179-204: issue the real kernel commit and update engine state on
success. -/
def finishCommit (env : Env) (st : EngineState) (nfs : KmsFrameState)
    (nonblock : Bool) (pset : List PsetOp) (pre : List Event)
    (a : AtomicCommitArgs) : CommitResult :=
  let tr := pre ++ [Event.kernelCommit pset false nonblock]
  if env.commitRet ≠ 0 then
    { ret := env.commitRet, state := st, trace := tr, argsOut := a }
  else
    let aOut := { a with out_fence := some env.outFenceFd }
    if nonblock then
      { ret := 0
        state := { st with
          last_present_fence := some env.outFenceFd
          staged_frame_state := nfs
          frames_staged := st.frames_staged + 1 }
        trace := tr
        argsOut := aOut }
    else
      { ret := 0
        state := { st with active_frame_state := nfs }
        trace := tr
        argsOut := aOut }

/-- Lines 50-205: `DrmAtomicStateManager::CommitFrame`. -/
def CommitFrame (env : Env) (st : EngineState) (args0 : AtomicCommitArgs) :
    CommitResult :=
  if HasInputs (dropSameActive st args0) = false then
    { ret := 0, state := st, trace := [], argsOut := dropSameActive st args0 }
  else
    let args := processedArgs st args0
    match buildPset env st args with
    | .error e => { ret := e, state := st, trace := [], argsOut := args }
    | .ok (pset, nfs, nonblock) =>
      if args.test_only then
        { ret := env.testCommitRet, state := st
          trace := [Event.kernelCommit pset true false], argsOut := args }
      else
        match st.last_present_fence with
        | some f =>
          finishCommit env (CleanupPriorFrameResources st) nfs nonblock pset
            [Event.syncWait f, Event.cleanup] args
        | none => finishCommit env st nfs nonblock pset [] args

/-- The recovery arguments built at lines 278-279: an empty plan. -/
def clArgs : AtomicCommitArgs :=
  { composition := some { plan := [] } }

/-- Result of `ExecuteAtomicCommit`: status, state, the argument record of
every inner `CommitFrame` invocation, and the combined event trace. -/
structure ExecResult where
  ret : Int
  state : EngineState
  attempts : List AtomicCommitArgs
  trace : List Event
deriving DecidableEq

/-- Lines 269-289: `DrmAtomicStateManager::ExecuteAtomicCommit`; `envR`
fixes the outcomes of the external calls of the recovery commit. -/
def ExecuteAtomicCommit (env envR : Env) (st : EngineState)
    (args : AtomicCommitArgs) : ExecResult :=
  let r := CommitFrame env st args
  if args.test_only = false then
    if r.ret ≠ 0 then
      let r2 := CommitFrame envR r.state clArgs
      { ret := r.ret, state := r2.state, attempts := [args, clArgs]
        trace := r.trace ++ r2.trace }
    else
      { ret := r.ret, state := r.state, attempts := [args], trace := r.trace }
  else
    { ret := r.ret, state := r.state, attempts := [args], trace := r.trace }

/-- Plane-binding entries the loop of lines 131-147 appends, in order:
the first entry carries the most-bottom flag it was started with, all
later entries carry false. -/
def planeOps : List Joining → Bool → List PsetOp
  | [], _ => []
  | j :: rest, mb =>
    PsetOp.planeState j.plane j.layer.fb j.z_pos mb :: planeOps rest false

/-- A plane handle not re-used by any entry of the plan. -/
def notInPlan (plan : List Joining) (p : Nat) : Bool :=
  plan.all (fun j => p != j.plane)

/-- An environment in which every external call succeeds. -/
def envOK : Env :=
  { allocPsetOk := true, outFenceSetOk := true, activeSetOk := true
    crtcIdSetOk := true, modeBlobOk := true, modeSetOk := true
    hasCtmProperty := true, ctmBlobOk := true, ctmSetOk := true
    planeSetOk := fun _ => true, planeDisableOk := fun _ => true
    syncWaitRet := 0, commitRet := 0, testCommitRet := 0, outFenceFd := 7 }

/-- Environment in which the real kernel commit is rejected. -/
def envFail : Env := { envOK with commitRet := -22 }

/-- Environment whose CRTC exposes no color-transform property. -/
def envNoCtm : Env := { envOK with hasCtmProperty := false }

/-- An engine state with the display active and no pending fence. -/
def stActive : EngineState :=
  { active_frame_state := { crtc_active_state := true } }

/-- An engine state with a staged frame pending confirmation. -/
def stPend : EngineState :=
  { active_frame_state := { crtc_active_state := true }
    staged_frame_state := { crtc_active_state := true, used_planes := [4] }
    last_present_fence := some 5
    frames_staged := 1
    frames_tracked := 0 }

/-- A request changing only the display mode. -/
def argsModeOnly : AtomicCommitArgs := { display_mode := some 1 }

/-- A request carrying only an (empty) composition plan. -/
def argsComp : AtomicCommitArgs := { composition := some { plan := [] } }

/-! ## Characterization lemmas for the build phase -/

lemma activeOps_ok {env : Env} {a : AtomicCommitArgs} {nfs : KmsFrameState}
    {ops : List PsetOp} {nfs' : KmsFrameState} {nb : Bool}
    (h : activeOps env a nfs = .ok (ops, nfs', nb)) :
    (a.active = none ∧ ops = [] ∧ nfs' = nfs ∧ nb = true) ∨
    (∃ v, a.active = some v ∧ ops = [PsetOp.active v, PsetOp.crtcId] ∧
      nfs' = { nfs with crtc_active_state := v } ∧ nb = false) := by
  unfold activeOps at h
  cases ha : a.active with
  | none =>
    rw [ha] at h
    simp only [Except.ok.injEq, Prod.mk.injEq] at h
    exact Or.inl ⟨rfl, h.1.symm, h.2.1.symm, h.2.2.symm⟩
  | some v =>
    rw [ha] at h
    split_ifs at h
    simp only [Except.ok.injEq, Prod.mk.injEq] at h
    exact Or.inr ⟨v, rfl, h.1.symm, h.2.1.symm, h.2.2.symm⟩

lemma modeOps_ok {env : Env} {a : AtomicCommitArgs} {nfs : KmsFrameState}
    {ops : List PsetOp} {nfs' : KmsFrameState}
    (h : modeOps env a nfs = .ok (ops, nfs')) :
    (a.display_mode = none ∧ ops = [] ∧ nfs' = nfs) ∨
    (∃ m, a.display_mode = some m ∧ ops = [PsetOp.modeBlob m] ∧
      nfs' = { nfs with mode_blob := some m }) := by
  unfold modeOps at h
  cases ha : a.display_mode with
  | none =>
    rw [ha] at h
    simp only [Except.ok.injEq, Prod.mk.injEq] at h
    exact Or.inl ⟨rfl, h.1.symm, h.2.symm⟩
  | some m =>
    rw [ha] at h
    split_ifs at h
    simp only [Except.ok.injEq, Prod.mk.injEq] at h
    exact Or.inr ⟨m, rfl, h.1.symm, h.2.symm⟩

lemma ctmOps_ok {env : Env} {a : AtomicCommitArgs} {nfs : KmsFrameState}
    {ops : List PsetOp} {nfs' : KmsFrameState}
    (h : ctmOps env a nfs = .ok (ops, nfs')) :
    (ops = [] ∧ nfs' = nfs ∧ (a.color_matrix = none ∨ env.hasCtmProperty = false)) ∨
    (∃ c, a.color_matrix = some c ∧ env.hasCtmProperty = true ∧
      ops = [PsetOp.ctmBlob c] ∧ nfs' = { nfs with ctm_blob := some c }) := by
  unfold ctmOps at h
  cases ha : a.color_matrix with
  | none =>
    rw [ha] at h
    simp only [Except.ok.injEq, Prod.mk.injEq] at h
    exact Or.inl ⟨h.1.symm, h.2.symm, Or.inl rfl⟩
  | some c =>
    rw [ha] at h
    simp only [] at h
    by_cases hc : env.hasCtmProperty = true
    · rw [if_pos hc] at h
      split_ifs at h
      simp only [Except.ok.injEq, Prod.mk.injEq] at h
      exact Or.inr ⟨c, rfl, hc, h.1.symm, h.2.symm⟩
    · rw [if_neg hc] at h
      simp only [Except.ok.injEq, Prod.mk.injEq] at h
      exact Or.inl ⟨h.1.symm, h.2.symm, Or.inr (by simpa using hc)⟩

lemma bindPlanes_ok {env : Env} :
    ∀ {plan : List Joining} {pset : List PsetOp} {nfs : KmsFrameState}
      {unused : List Nat} {mb : Bool} {pset' : List PsetOp}
      {nfs' : KmsFrameState} {unused' : List Nat},
      bindPlanes env plan pset nfs unused mb = .ok (pset', nfs', unused') →
      pset' = pset ++ planeOps plan mb ∧
      unused' = unused.filter (notInPlan plan) ∧
      nfs'.mode_blob = nfs.mode_blob ∧ nfs'.ctm_blob = nfs.ctm_blob
  | [], pset, nfs, unused, mb, pset', nfs', unused', h => by
    unfold bindPlanes at h
    simp only [Except.ok.injEq, Prod.mk.injEq] at h
    refine ⟨by simp [planeOps, h.1.symm], ?_, by rw [← h.2.1], by rw [← h.2.1]⟩
    rw [← h.2.2]
    have hu : ∀ p ∈ unused, notInPlan [] p := fun p _ => rfl
    exact (List.filter_eq_self.mpr hu).symm
  | j :: rest, pset, nfs, unused, mb, pset', nfs', unused', h => by
    unfold bindPlanes at h
    split_ifs at h
    obtain ⟨h1, h2, h3, h4⟩ := bindPlanes_ok h
    refine ⟨by simp [planeOps, h1], ?_, h3, h4⟩
    rw [h2, List.filter_filter]
    apply List.filter_congr
    intro x _
    simp [notInPlan, Bool.and_comm]

lemma disablePlanes_ok {env : Env} :
    ∀ {unused : List Nat} {pset : List PsetOp} {pset' : List PsetOp},
      disablePlanes env unused pset = .ok pset' →
      pset' = pset ++ unused.map PsetOp.planeDisable
  | [], pset, pset', h => by
    unfold disablePlanes at h
    simp only [Except.ok.injEq] at h
    simp [h.symm]
  | p :: rest, pset, pset', h => by
    unfold disablePlanes at h
    split_ifs at h
    have h1 := disablePlanes_ok h
    simp [h1]

lemma buildPset_ok {env : Env} {st : EngineState} {a : AtomicCommitArgs}
    {pset : List PsetOp} {nfs : KmsFrameState} {nb : Bool}
    (h : buildPset env st a = .ok (pset, nfs, nb)) :
    ∃ aops nfs1 mops nfs2 cops nfs3,
      activeOps env a (NewFrameState st) = .ok (aops, nfs1, nb) ∧
      modeOps env a nfs1 = .ok (mops, nfs2) ∧
      ctmOps env a nfs2 = .ok (cops, nfs3) ∧
      ((a.composition = none ∧
          pset = PsetOp.outFencePtr :: (aops ++ mops ++ cops) ∧ nfs = nfs3) ∨
       (∃ comp pset2 nfs4 unused,
          a.composition = some comp ∧
          bindPlanes env comp.plan (PsetOp.outFencePtr :: (aops ++ mops ++ cops))
            { nfs3 with used_planes := [] } nfs3.used_planes true =
            .ok (pset2, nfs4, unused) ∧
          disablePlanes env unused pset2 = .ok pset ∧ nfs = nfs4)) := by
  unfold buildPset at h
  split_ifs at h
  cases h1 : activeOps env a (NewFrameState st) with
  | error e => rw [h1] at h; exact absurd h (by simp)
  | ok x =>
    obtain ⟨aops, nfs1, nb1⟩ := x
    rw [h1] at h
    simp only [] at h
    cases h2 : modeOps env a nfs1 with
    | error e => rw [h2] at h; exact absurd h (by simp)
    | ok y =>
      obtain ⟨mops, nfs2⟩ := y
      rw [h2] at h
      simp only [] at h
      cases h3 : ctmOps env a nfs2 with
      | error e => rw [h3] at h; exact absurd h (by simp)
      | ok z =>
        obtain ⟨cops, nfs3⟩ := z
        rw [h3] at h
        simp only [] at h
        cases hc : a.composition with
        | none =>
          rw [hc] at h
          simp only [Except.ok.injEq, Prod.mk.injEq] at h
          obtain ⟨hp, hn, hb⟩ := h
          subst hb
          exact ⟨aops, nfs1, mops, nfs2, cops, nfs3, rfl, h2, h3,
            Or.inl ⟨rfl, hp.symm, hn.symm⟩⟩
        | some comp =>
          rw [hc] at h
          simp only [] at h
          cases h4 : bindPlanes env comp.plan
              (PsetOp.outFencePtr :: (aops ++ mops ++ cops))
              { nfs3 with used_planes := [] } nfs3.used_planes true with
          | error e => rw [h4] at h; exact absurd h (by simp)
          | ok w =>
            obtain ⟨pset2, nfs4, unused⟩ := w
            rw [h4] at h
            simp only [] at h
            cases h5 : disablePlanes env unused pset2 with
            | error e => rw [h5] at h; exact absurd h (by simp)
            | ok pset3 =>
              rw [h5] at h
              simp only [Except.ok.injEq, Prod.mk.injEq] at h
              obtain ⟨hp, hn, hb⟩ := h
              subst hb hp hn
              exact ⟨aops, nfs1, mops, nfs2, cops, nfs3, rfl, h2, h3,
                Or.inr ⟨comp, pset2, nfs4, unused, rfl, h4, h5, rfl⟩⟩

/-! ## Error-side lemmas: every build failure is -12 or -22 -/

lemma activeOps_error {env : Env} {a : AtomicCommitArgs} {nfs : KmsFrameState}
    {e : Int} (h : activeOps env a nfs = .error e) : e = -22 := by
  unfold activeOps at h
  cases ha : a.active with
  | none => rw [ha] at h; exact absurd h (by simp)
  | some v => rw [ha] at h; split_ifs at h <;> simp_all

lemma modeOps_error {env : Env} {a : AtomicCommitArgs} {nfs : KmsFrameState}
    {e : Int} (h : modeOps env a nfs = .error e) : e = -22 := by
  unfold modeOps at h
  cases ha : a.display_mode with
  | none => rw [ha] at h; exact absurd h (by simp)
  | some m => rw [ha] at h; split_ifs at h <;> simp_all

lemma ctmOps_error {env : Env} {a : AtomicCommitArgs} {nfs : KmsFrameState}
    {e : Int} (h : ctmOps env a nfs = .error e) : e = -22 := by
  unfold ctmOps at h
  cases ha : a.color_matrix with
  | none => rw [ha] at h; exact absurd h (by simp)
  | some c => rw [ha] at h; split_ifs at h <;> simp_all

lemma bindPlanes_error {env : Env} :
    ∀ {plan : List Joining} {pset : List PsetOp} {nfs : KmsFrameState}
      {unused : List Nat} {mb : Bool} {e : Int},
      bindPlanes env plan pset nfs unused mb = .error e → e = -22
  | [], _, _, _, _, _, h => by
    unfold bindPlanes at h; exact absurd h (by simp)
  | j :: rest, pset, nfs, unused, mb, e, h => by
    unfold bindPlanes at h
    split_ifs at h
    · exact bindPlanes_error h
    · simp_all

lemma disablePlanes_error {env : Env} :
    ∀ {unused : List Nat} {pset : List PsetOp} {e : Int},
      disablePlanes env unused pset = .error e → e = -22
  | [], _, _, h => by
    unfold disablePlanes at h; exact absurd h (by simp)
  | p :: rest, pset, e, h => by
    unfold disablePlanes at h
    split_ifs at h
    · exact disablePlanes_error h
    · simp_all

lemma buildPset_error {env : Env} {st : EngineState} {a : AtomicCommitArgs}
    {e : Int} (h : buildPset env st a = .error e) : e = -12 ∨ e = -22 := by
  unfold buildPset at h
  split_ifs at h
  · exact Or.inl (by simpa using h.symm)
  · exact Or.inr (by simpa using h.symm)
  cases h1 : activeOps env a (NewFrameState st) with
  | error e1 =>
    rw [h1] at h
    simp only [Except.error.injEq] at h
    exact Or.inr (by rw [← h]; exact activeOps_error h1)
  | ok x =>
    obtain ⟨aops, nfs1, nb1⟩ := x
    rw [h1] at h
    simp only [] at h
    cases h2 : modeOps env a nfs1 with
    | error e2 =>
      rw [h2] at h
      simp only [Except.error.injEq] at h
      exact Or.inr (by rw [← h]; exact modeOps_error h2)
    | ok y =>
      obtain ⟨mops, nfs2⟩ := y
      rw [h2] at h
      simp only [] at h
      cases h3 : ctmOps env a nfs2 with
      | error e3 =>
        rw [h3] at h
        simp only [Except.error.injEq] at h
        exact Or.inr (by rw [← h]; exact ctmOps_error h3)
      | ok z =>
        obtain ⟨cops, nfs3⟩ := z
        rw [h3] at h
        simp only [] at h
        cases hc : a.composition with
        | none => rw [hc] at h; exact absurd h (by simp)
        | some comp =>
          rw [hc] at h
          simp only [] at h
          cases h4 : bindPlanes env comp.plan
              (PsetOp.outFencePtr :: (aops ++ mops ++ cops))
              { nfs3 with used_planes := [] } nfs3.used_planes true with
          | error e4 =>
            rw [h4] at h
            simp only [Except.error.injEq] at h
            exact Or.inr (by rw [← h]; exact bindPlanes_error h4)
          | ok w =>
            obtain ⟨pset2, nfs4, unused⟩ := w
            rw [h4] at h
            simp only [] at h
            cases h5 : disablePlanes env unused pset2 with
            | error e5 =>
              rw [h5] at h
              simp only [Except.error.injEq] at h
              exact Or.inr (by rw [← h]; exact disablePlanes_error h5)
            | ok pset3 => rw [h5] at h; exact absurd h (by simp)

/-! ## Argument processing preserves the test flag and the optional fields -/

lemma dropSameActive_fields (st : EngineState) (a : AtomicCommitArgs) :
    (dropSameActive st a).test_only = a.test_only ∧
    (dropSameActive st a).display_mode = a.display_mode ∧
    (dropSameActive st a).color_matrix = a.color_matrix ∧
    (dropSameActive st a).composition = a.composition := by
  unfold dropSameActive
  split <;> exact ⟨rfl, rfl, rfl, rfl⟩

lemma forceActivate_fields (st : EngineState) (a : AtomicCommitArgs) :
    (forceActivate st a).test_only = a.test_only ∧
    (forceActivate st a).display_mode = a.display_mode ∧
    (forceActivate st a).color_matrix = a.color_matrix ∧
    (forceActivate st a).composition = a.composition := by
  unfold forceActivate
  split <;> exact ⟨rfl, rfl, rfl, rfl⟩

lemma processedArgs_test (st : EngineState) (a : AtomicCommitArgs) :
    (processedArgs st a).test_only = a.test_only := by
  unfold processedArgs
  rw [(forceActivate_fields st _).1, (dropSameActive_fields st a).1]

/-! ## Case analysis of the commit phase -/

lemma finishCommit_spec (env : Env) (st : EngineState) (nfs : KmsFrameState)
    (nb : Bool) (pset : List PsetOp) (pre : List Event) (a : AtomicCommitArgs) :
    (finishCommit env st nfs nb pset pre a).trace =
        pre ++ [Event.kernelCommit pset false nb] ∧
    ((env.commitRet ≠ 0 ∧
        (finishCommit env st nfs nb pset pre a).ret = env.commitRet ∧
        (finishCommit env st nfs nb pset pre a).state = st) ∨
     (env.commitRet = 0 ∧ (finishCommit env st nfs nb pset pre a).ret = 0 ∧
      ((nb = true ∧ (finishCommit env st nfs nb pset pre a).state =
          { st with last_present_fence := some env.outFenceFd
                    staged_frame_state := nfs
                    frames_staged := st.frames_staged + 1 }) ∨
       (nb = false ∧ (finishCommit env st nfs nb pset pre a).state =
          { st with active_frame_state := nfs })))) := by
  unfold finishCommit
  by_cases hc : env.commitRet ≠ 0
  · rw [if_pos hc]
    exact ⟨rfl, Or.inl ⟨hc, rfl, rfl⟩⟩
  · rw [if_neg hc]
    push_neg at hc
    cases nb with
    | true =>
      rw [if_pos rfl]
      exact ⟨rfl, Or.inr ⟨hc, rfl, Or.inl ⟨rfl, rfl⟩⟩⟩
    | false =>
      rw [if_neg Bool.false_ne_true]
      exact ⟨rfl, Or.inr ⟨hc, rfl, Or.inr ⟨rfl, rfl⟩⟩⟩

lemma CommitFrame_cases (env : Env) (st : EngineState) (args0 : AtomicCommitArgs) :
    (HasInputs (dropSameActive st args0) = false ∧
      CommitFrame env st args0 =
        { ret := 0, state := st, trace := [], argsOut := dropSameActive st args0 }) ∨
    (HasInputs (dropSameActive st args0) = true ∧
     ((∃ e, buildPset env st (processedArgs st args0) = .error e ∧
        CommitFrame env st args0 =
          { ret := e, state := st, trace := [], argsOut := processedArgs st args0 }) ∨
      (∃ pset nfs nb,
        buildPset env st (processedArgs st args0) = .ok (pset, nfs, nb) ∧
        ((args0.test_only = true ∧
           CommitFrame env st args0 =
             { ret := env.testCommitRet, state := st
               trace := [Event.kernelCommit pset true false]
               argsOut := processedArgs st args0 }) ∨
         (args0.test_only = false ∧
          ((∃ f, st.last_present_fence = some f ∧
             CommitFrame env st args0 =
               finishCommit env (CleanupPriorFrameResources st) nfs nb pset
                 [Event.syncWait f, Event.cleanup] (processedArgs st args0)) ∨
           (st.last_present_fence = none ∧
             CommitFrame env st args0 =
               finishCommit env st nfs nb pset [] (processedArgs st args0)))))))) := by
  by_cases hin : HasInputs (dropSameActive st args0) = false
  · refine Or.inl ⟨hin, ?_⟩
    unfold CommitFrame
    rw [if_pos hin]
  · have hin2 : HasInputs (dropSameActive st args0) = true := by
      cases hx : HasInputs (dropSameActive st args0) with
      | false => exact absurd hx hin
      | true => rfl
    refine Or.inr ⟨hin2, ?_⟩
    cases hb : buildPset env st (processedArgs st args0) with
    | error e =>
      refine Or.inl ⟨e, rfl, ?_⟩
      unfold CommitFrame
      rw [if_neg hin]
      simp only [] at hb ⊢
      rw [hb]
    | ok x =>
      obtain ⟨pset, nfs, nb⟩ := x
      refine Or.inr ⟨pset, nfs, nb, rfl, ?_⟩
      have htest : (processedArgs st args0).test_only = args0.test_only :=
        processedArgs_test st args0
      cases ht : args0.test_only with
      | true =>
        refine Or.inl ⟨rfl, ?_⟩
        unfold CommitFrame
        rw [if_neg hin]
        simp only []
        rw [hb]
        simp only []
        rw [htest, ht]
        simp only [if_pos]
      | false =>
        refine Or.inr ⟨rfl, ?_⟩
        cases hf : st.last_present_fence with
        | some f =>
          refine Or.inl ⟨f, rfl, ?_⟩
          unfold CommitFrame
          rw [if_neg hin]
          simp only []
          rw [hb]
          simp only []
          rw [htest, ht]
          simp only [Bool.false_eq_true, if_false]
          rw [hf]
        | none =>
          refine Or.inr ⟨rfl, ?_⟩
          unfold CommitFrame
          rw [if_neg hin]
          simp only []
          rw [hb]
          simp only []
          rw [htest, ht]
          simp only [Bool.false_eq_true, if_false]
          rw [hf]

/-! ## Tracker thread model (`ThreadFn`, lines 207-256)

The commit path runs under the device main lock; `ThreadFn` takes the
main lock and the pipeline mutex before cleaning up (lines 243-252), so
the interleaving is at the granularity of these critical sections: one
snapshot step (lines 216-230), one cleanup-decision step (lines 243-252),
and whole `CommitFrame` calls.  `stepT` is instrumented to fail (return
`none`) exactly when `CleanupPriorFrameResources` would be entered with
one of its assertions (lines 259-260) false. -/

structure TrackState where
  eng : EngineState
  tracking_at_the_moment : Int
  armed : Bool

/-- Initial state: fresh engine, tracker local high-water mark -1
(line 209). -/
def trackInit : TrackState :=
  { eng := {}, tracking_at_the_moment := -1, armed := false }

/-- One scheduled action: a whole commit call on the caller thread, or
one of the tracker's two critical sections. -/
inductive Cmd where
  | commit (env : Env) (args : AtomicCommitArgs) : Cmd
  | snap : Cmd
  | clean : Cmd

/-- One interleaving step; `none` signals an assertion failure inside
`CleanupPriorFrameResources`. -/
def stepT (s : TrackState) : Cmd → Option TrackState
  | .commit env args =>
    if Event.cleanup ∈ (CommitFrame env s.eng args).trace ∧
        cleanupOk s.eng = false then none
    else some { s with eng := (CommitFrame env s.eng args).state }
  | .snap =>
    if s.tracking_at_the_moment < s.eng.frames_staged then
      some { s with
        tracking_at_the_moment := s.eng.frames_staged
        armed := s.eng.last_present_fence.isSome }
    else some { s with armed := false }
  | .clean =>
    if s.armed = true ∧ s.eng.frames_tracked < s.tracking_at_the_moment then
      if cleanupOk s.eng = true then
        some { s with eng := CleanupPriorFrameResources s.eng, armed := false }
      else none
    else some { s with armed := false }

/-- Run a schedule of interleaved steps. -/
def runT : TrackState → List Cmd → Option TrackState
  | s, [] => some s
  | s, c :: cs =>
    match stepT s c with
    | none => none
    | some s2 => runT s2 cs

/-- Engine part of the concurrency invariant: at most one frame is
unconfirmed, and a completion fence is tracked exactly when one is. -/
def engInv (st : EngineState) : Prop :=
  (st.frames_staged - st.frames_tracked = 0 ∨
    st.frames_staged - st.frames_tracked = 1) ∧
  (st.last_present_fence.isSome = true ↔
    st.frames_staged - st.frames_tracked = 1)

/-- Full invariant: engine invariant plus the tracker's high-water mark
never exceeds the staged counter. -/
def trackInv (s : TrackState) : Prop :=
  engInv s.eng ∧ s.tracking_at_the_moment ≤ s.eng.frames_staged

lemma cleanup_event_needs_fence {env : Env} {st : EngineState}
    {args : AtomicCommitArgs}
    (h : Event.cleanup ∈ (CommitFrame env st args).trace) :
    st.last_present_fence.isSome = true := by
  rcases CommitFrame_cases env st args with ⟨_, hr⟩ | ⟨_, ⟨e, _, hr⟩ | hok⟩
  · rw [hr] at h; simp at h
  · rw [hr] at h; simp at h
  · obtain ⟨pset, nfs, nb, _, ⟨_, hr⟩ | ⟨_, hfin⟩⟩ := hok
    · rw [hr] at h; simp at h
    · rcases hfin with ⟨f, hf, _⟩ | ⟨hf, hr⟩
      · rw [hf]; rfl
      · rw [hr] at h
        rw [(finishCommit_spec env st nfs nb pset [] _).1] at h
        simp at h

lemma CommitFrame_engInv {env : Env} {st : EngineState}
    {args : AtomicCommitArgs} (hI : engInv st) :
    engInv (CommitFrame env st args).state := by
  rcases CommitFrame_cases env st args with ⟨_, hr⟩ | ⟨_, ⟨e, _, hr⟩ | hok⟩
  · rw [hr]; exact hI
  · rw [hr]; exact hI
  · obtain ⟨pset, nfs, nb, _, ⟨_, hr⟩ | ⟨_, hfin⟩⟩ := hok
    · rw [hr]; exact hI
    · rcases hfin with ⟨f, hf, hr⟩ | ⟨hf, hr⟩
      · -- a fence was pending: it is drained first, so diff was 1
        have hdiff : st.frames_staged - st.frames_tracked = 1 :=
          hI.2.mp (by rw [hf]; rfl)
        rw [hr]
        rcases (finishCommit_spec env (CleanupPriorFrameResources st) nfs nb
            pset [Event.syncWait f, Event.cleanup] (processedArgs st args)).2 with
          ⟨_, _, hs⟩ | ⟨_, _, ⟨hnb, hs⟩ | ⟨hnb, hs⟩⟩
        all_goals rw [hs]
        · constructor
          · left
            simp only [CleanupPriorFrameResources]
            omega
          · simp only [CleanupPriorFrameResources, Option.isSome_none]
            constructor
            · intro hx; exact absurd hx (by simp)
            · intro hx; omega
        · constructor
          · right
            simp only [CleanupPriorFrameResources]
            omega
          · simp only [CleanupPriorFrameResources, Option.isSome_some]
            constructor
            · intro _; omega
            · intro _; trivial
        · constructor
          · left
            simp only [CleanupPriorFrameResources]
            omega
          · simp only [CleanupPriorFrameResources, Option.isSome_none]
            constructor
            · intro hx; exact absurd hx (by simp)
            · intro hx; omega
      · -- no fence pending: diff was 0
        have hdiff : st.frames_staged - st.frames_tracked = 0 := by
          rcases hI.1 with h0 | h1
          · exact h0
          · exact absurd (hI.2.mpr h1) (by rw [hf]; simp)
        rw [hr]
        rcases (finishCommit_spec env st nfs nb pset []
            (processedArgs st args)).2 with
          ⟨_, _, hs⟩ | ⟨_, _, ⟨hnb, hs⟩ | ⟨hnb, hs⟩⟩
        all_goals rw [hs]
        · exact hI
        · constructor
          · right; simp only []; omega
          · simp only [Option.isSome_some]
            constructor
            · intro _; omega
            · intro _; trivial
        · constructor
          · left; simp only []; omega
          · rw [hf]
            simp only [Option.isSome_none]
            constructor
            · intro hx; exact absurd hx (by simp)
            · intro hx; omega

lemma CommitFrame_staged_mono {env : Env} {st : EngineState}
    {args : AtomicCommitArgs} :
    st.frames_staged ≤ (CommitFrame env st args).state.frames_staged := by
  rcases CommitFrame_cases env st args with ⟨_, hr⟩ | ⟨_, ⟨e, _, hr⟩ | hok⟩
  · rw [hr]
  · rw [hr]
  · obtain ⟨pset, nfs, nb, _, ⟨_, hr⟩ | ⟨_, hfin⟩⟩ := hok
    · rw [hr]
    · rcases hfin with ⟨f, hf, hr⟩ | ⟨hf, hr⟩ <;> rw [hr]
      · rcases (finishCommit_spec env (CleanupPriorFrameResources st) nfs nb
            pset [Event.syncWait f, Event.cleanup] (processedArgs st args)).2 with
          ⟨_, _, hs⟩ | ⟨_, _, ⟨hnb, hs⟩ | ⟨hnb, hs⟩⟩
        all_goals rw [hs]
        all_goals simp only [CleanupPriorFrameResources]
        all_goals omega
      · rcases (finishCommit_spec env st nfs nb pset []
            (processedArgs st args)).2 with
          ⟨_, _, hs⟩ | ⟨_, _, ⟨hnb, hs⟩ | ⟨hnb, hs⟩⟩
        all_goals rw [hs]
        all_goals first
        | omega
        | (simp only []; omega)

lemma stepT_some_inv {s : TrackState} {c : Cmd} (hI : trackInv s) :
    ∃ s2, stepT s c = some s2 ∧ trackInv s2 := by
  cases c with
  | commit env args =>
    unfold stepT
    simp only []
    by_cases hg : Event.cleanup ∈ (CommitFrame env s.eng args).trace ∧
        cleanupOk s.eng = false
    · exfalso
      obtain ⟨hcl, hok⟩ := hg
      have hf := cleanup_event_needs_fence hcl
      have hd := hI.1.2.mp hf
      unfold cleanupOk at hok
      rw [hf, hd] at hok
      simp at hok
    · rw [if_neg hg]
      exact ⟨_, rfl, CommitFrame_engInv hI.1,
        le_trans hI.2 CommitFrame_staged_mono⟩
  | snap =>
    unfold stepT
    simp only []
    by_cases hlt : s.tracking_at_the_moment < s.eng.frames_staged
    · rw [if_pos hlt]
      exact ⟨_, rfl, hI.1, le_refl _⟩
    · rw [if_neg hlt]
      exact ⟨_, rfl, hI.1, hI.2⟩
  | clean =>
    unfold stepT
    simp only []
    by_cases hen : s.armed = true ∧
        s.eng.frames_tracked < s.tracking_at_the_moment
    · rw [if_pos hen]
      have hd : s.eng.frames_staged - s.eng.frames_tracked = 1 := by
        rcases hI.1.1 with h0 | h1
        · exfalso
          have h2 := hI.2
          have h3 := hen.2
          omega
        · exact h1
      have hf : s.eng.last_present_fence.isSome = true := hI.1.2.mpr hd
      have hok : cleanupOk s.eng = true := by
        unfold cleanupOk
        rw [hf, hd]
        rfl
      rw [if_pos hok]
      refine ⟨_, rfl, ⟨?_, ?_⟩, ?_⟩
      · left
        simp only [CleanupPriorFrameResources]
        omega
      · simp only [CleanupPriorFrameResources, Option.isSome_none]
        constructor
        · intro hx; exact absurd hx (by simp)
        · intro hx; omega
      · simp only [CleanupPriorFrameResources]
        exact hI.2
    · rw [if_neg hen]
      exact ⟨_, rfl, hI.1, hI.2⟩

lemma runT_inv : ∀ (cs : List Cmd) (s : TrackState), trackInv s →
    ∃ s2, runT s cs = some s2 ∧ trackInv s2
  | [], s, h => ⟨s, rfl, h⟩
  | c :: cs, s, h => by
    obtain ⟨s1, hs1, h1⟩ := @stepT_some_inv s c h
    obtain ⟨s2, hs2, h2⟩ := runT_inv cs s1 h1
    refine ⟨s2, ?_, h2⟩
    unfold runT
    rw [hs1]
    exact hs2

lemma trackInit_inv : trackInv trackInit := by
  constructor
  · constructor
    · left; rfl
    · constructor
      · intro hx; exact absurd hx (by simp [trackInit])
      · intro hx; exact absurd hx (by simp [trackInit])
  · show (-1 : Int) ≤ 0
    norm_num

/-! ## Lemmas about transaction contents -/

lemma planeOps_false : ∀ (plan : List Joining),
    planeOps plan false =
      plan.map (fun k => PsetOp.planeState k.plane k.layer.fb k.z_pos false)
  | [] => rfl
  | j :: rest => by
    unfold planeOps
    rw [planeOps_false rest]
    rfl

lemma active_not_in_planeOps (v : Bool) : ∀ (plan : List Joining) (mb : Bool),
    PsetOp.active v ∉ planeOps plan mb
  | [], _ => by simp [planeOps]
  | j :: rest, mb => by
    unfold planeOps
    simp only [List.mem_cons]
    rintro (hx | hx)
    · exact absurd hx (by simp)
    · exact absurd hx (active_not_in_planeOps v rest false)

lemma commit_event_pset {env : Env} {st : EngineState} {args : AtomicCommitArgs}
    {pset : List PsetOp} {tob nb : Bool}
    (h : Event.kernelCommit pset tob nb ∈ (CommitFrame env st args).trace) :
    ∃ nfs nb2, buildPset env st (processedArgs st args) = .ok (pset, nfs, nb2) := by
  rcases CommitFrame_cases env st args with ⟨_, hr⟩ | ⟨_, ⟨e, _, hr⟩ | hok⟩
  · rw [hr] at h; simp at h
  · rw [hr] at h; simp at h
  · obtain ⟨pset1, nfs, nb1, hb, ⟨_, hr⟩ | ⟨_, hfin⟩⟩ := hok
    · rw [hr] at h
      simp only [List.mem_cons, List.not_mem_nil, or_false,
        Event.kernelCommit.injEq] at h
      rw [h.1]
      exact ⟨nfs, nb1, hb⟩
    · rcases hfin with ⟨f, hf, hr⟩ | ⟨hf, hr⟩ <;> rw [hr] at h
      · rw [(finishCommit_spec env (CleanupPriorFrameResources st) nfs nb1 pset1
            [Event.syncWait f, Event.cleanup] (processedArgs st args)).1] at h
        simp only [List.cons_append, List.nil_append, List.mem_cons,
          List.not_mem_nil, or_false, Event.kernelCommit.injEq] at h
        rcases h with h | h | h
        · exact absurd h (by simp)
        · exact absurd h (by simp)
        · rw [h.1]
          exact ⟨nfs, nb1, hb⟩
      · rw [(finishCommit_spec env st nfs nb1 pset1 []
            (processedArgs st args)).1] at h
        simp only [List.nil_append, List.mem_cons, List.not_mem_nil, or_false,
          Event.kernelCommit.injEq] at h
        rw [h.1]
        exact ⟨nfs, nb1, hb⟩

lemma commit_event_real {env : Env} {st : EngineState} {args : AtomicCommitArgs}
    {pset : List PsetOp} {nb : Bool}
    (h : Event.kernelCommit pset false nb ∈ (CommitFrame env st args).trace) :
    ∃ nfs, buildPset env st (processedArgs st args) = .ok (pset, nfs, nb) := by
  rcases CommitFrame_cases env st args with ⟨_, hr⟩ | ⟨_, ⟨e, _, hr⟩ | hok⟩
  · rw [hr] at h; simp at h
  · rw [hr] at h; simp at h
  · obtain ⟨pset1, nfs, nb1, hb, ⟨_, hr⟩ | ⟨_, hfin⟩⟩ := hok
    · rw [hr] at h
      simp only [List.mem_cons, List.not_mem_nil, or_false,
        Event.kernelCommit.injEq] at h
      exact absurd h.2.1 (by simp)
    · rcases hfin with ⟨f, hf, hr⟩ | ⟨hf, hr⟩ <;> rw [hr] at h
      · rw [(finishCommit_spec env (CleanupPriorFrameResources st) nfs nb1 pset1
            [Event.syncWait f, Event.cleanup] (processedArgs st args)).1] at h
        simp only [List.cons_append, List.nil_append, List.mem_cons,
          List.not_mem_nil, or_false, Event.kernelCommit.injEq] at h
        rcases h with h | h | h
        · exact absurd h (by simp)
        · exact absurd h (by simp)
        · rw [h.1, h.2.2]
          exact ⟨nfs, hb⟩
      · rw [(finishCommit_spec env st nfs nb1 pset1 []
            (processedArgs st args)).1] at h
        simp only [List.nil_append, List.mem_cons, List.not_mem_nil, or_false,
          Event.kernelCommit.injEq] at h
        rw [h.1, h.2.2]
        exact ⟨nfs, hb⟩

lemma buildPset_nonblock {env : Env} {st : EngineState} {a : AtomicCommitArgs}
    {pset : List PsetOp} {nfs : KmsFrameState} {nb : Bool}
    (h : buildPset env st a = .ok (pset, nfs, nb)) :
    (nb = false ↔ a.active.isSome = true) := by
  obtain ⟨aops, nfs1, mops, nfs2, cops, nfs3, h1, _, _, _⟩ := buildPset_ok h
  rcases activeOps_ok h1 with ⟨ha, _, _, hnb⟩ | ⟨v, ha, _, _, hnb⟩
  · rw [hnb, ha]; simp
  · rw [hnb, ha]; simp

lemma buildPset_active_mem {env : Env} {st : EngineState} {a : AtomicCommitArgs}
    {pset : List PsetOp} {nfs : KmsFrameState} {nb : Bool} (v : Bool)
    (h : buildPset env st a = .ok (pset, nfs, nb)) :
    (PsetOp.active v ∈ pset ↔ a.active = some v) := by
  obtain ⟨aops, nfs1, mops, nfs2, cops, nfs3, h1, h2, h3, hrest⟩ := buildPset_ok h
  have haops : PsetOp.active v ∈ aops ↔ a.active = some v := by
    rcases activeOps_ok h1 with ⟨ha, hops, _, _⟩ | ⟨w, ha, hops, _, _⟩
    · rw [hops, ha]; simp
    · rw [hops, ha]
      simp [PsetOp.active.injEq, Option.some.injEq, eq_comm]
  have hm : PsetOp.active v ∉ mops := by
    rcases modeOps_ok h2 with ⟨_, hops, _⟩ | ⟨m, _, hops, _⟩ <;> rw [hops] <;> simp
  have hc : PsetOp.active v ∉ cops := by
    rcases ctmOps_ok h3 with ⟨hops, _, _⟩ | ⟨c, _, _, hops, _⟩ <;> rw [hops] <;> simp
  rcases hrest with ⟨_, hp, _⟩ | ⟨comp, pset2, nfs4, unused, _, h4, h5, _⟩
  · rw [hp]
    constructor
    · intro hx
      rcases List.mem_cons.mp hx with hx | hx
      · exact absurd hx (by simp)
      · rcases List.mem_append.mp hx with hx | hx
        · rcases List.mem_append.mp hx with hx | hx
          · exact haops.mp hx
          · exact absurd hx hm
        · exact absurd hx hc
    · intro hx
      exact List.mem_cons.mpr (Or.inr (List.mem_append.mpr (Or.inl
        (List.mem_append.mpr (Or.inl (haops.mpr hx))))))
  · obtain ⟨hp2, _, _, _⟩ := bindPlanes_ok h4
    have hp5 := disablePlanes_ok h5
    have hpl : PsetOp.active v ∉ planeOps comp.plan true :=
      active_not_in_planeOps v comp.plan true
    have hdis : PsetOp.active v ∉ unused.map PsetOp.planeDisable := by
      simp [List.mem_map]
    rw [hp5, hp2]
    constructor
    · intro hx
      rcases List.mem_append.mp hx with hx | hx
      · rcases List.mem_append.mp hx with hx | hx
        · rcases List.mem_cons.mp hx with hx | hx
          · exact absurd hx (by simp)
          · rcases List.mem_append.mp hx with hx | hx
            · rcases List.mem_append.mp hx with hx | hx
              · exact haops.mp hx
              · exact absurd hx hm
            · exact absurd hx hc
        · exact absurd hx hpl
      · exact absurd hx hdis
    · intro hx
      exact List.mem_append.mpr (Or.inl (List.mem_append.mpr (Or.inl
        (List.mem_cons.mpr (Or.inr (List.mem_append.mpr (Or.inl
          (List.mem_append.mpr (Or.inl (haops.mpr hx))))))))))

lemma processedArgs_active_isSome (st : EngineState) (args : AtomicCommitArgs) :
    ((processedArgs st args).active.isSome = true ↔
      (st.active_frame_state.crtc_active_state = false ∨
       ∃ a, args.active = some a ∧
         a ≠ st.active_frame_state.crtc_active_state)) := by
  unfold processedArgs forceActivate dropSameActive
  by_cases hcur : st.active_frame_state.crtc_active_state = false
  · rw [if_pos hcur]
    simp only [Option.isSome_some]
    constructor
    · intro _; exact Or.inl hcur
    · intro _; trivial
  · rw [if_neg hcur]
    by_cases hsame : args.active = some st.active_frame_state.crtc_active_state
    · rw [if_pos hsame]
      simp only [Option.isSome_none]
      constructor
      · intro hx; exact absurd hx (by simp)
      · rintro (hx | ⟨a, ha, hne⟩)
        · exact absurd hx hcur
        · rw [hsame] at ha
          exact absurd (Option.some.inj ha).symm hne
    · rw [if_neg hsame]
      cases hact : args.active with
      | none =>
        simp only [Option.isSome_none]
        constructor
        · intro hx; exact absurd hx (by simp)
        · rintro (hx | ⟨a, ha, _⟩)
          · exact absurd hx hcur
          · exact absurd ha (by simp)
      | some a =>
        simp only [Option.isSome_some]
        constructor
        · intro _
          refine Or.inr ⟨a, rfl, ?_⟩
          intro hx
          rw [hx] at hact
          exact hsame hact
        · intro _; trivial

lemma processedArgs_active_ne (st : EngineState) (args : AtomicCommitArgs) :
    (processedArgs st args).active ≠
      some st.active_frame_state.crtc_active_state := by
  unfold processedArgs forceActivate dropSameActive
  by_cases hcur : st.active_frame_state.crtc_active_state = false
  · rw [if_pos hcur]
    simp only []
    rw [hcur]
    simp
  · rw [if_neg hcur]
    by_cases hsame : args.active = some st.active_frame_state.crtc_active_state
    · rw [if_pos hsame]
      simp
    · rw [if_neg hsame]
      exact hsame

lemma modeOps_fail {env : Env} {a : AtomicCommitArgs} {nfs : KmsFrameState}
    {m : Nat} (hm : a.display_mode = some m) (hb : env.modeBlobOk = false) :
    modeOps env a nfs = .error (-22) := by
  unfold modeOps
  rw [hm]
  simp only []
  rw [if_neg (by simp [hb])]

lemma ctmOps_fail {env : Env} {a : AtomicCommitArgs} {nfs : KmsFrameState}
    {c : Nat} (hc : a.color_matrix = some c) (hp : env.hasCtmProperty = true)
    (hb : env.ctmBlobOk = false) : ctmOps env a nfs = .error (-22) := by
  unfold ctmOps
  rw [hc]
  simp only []
  rw [if_pos hp, if_neg (by simp [hb])]

/-! ## Concrete fixtures for witnesses and counterexamples -/

/-- The initial engine state (all fields default, display inactive). -/
def stInit : EngineState := {}

/-- A request turning the display off. -/
def argsActiveOff : AtomicCommitArgs := { active := some false }

/-- A request re-asserting the already-active state. -/
def argsActiveSame : AtomicCommitArgs := { active := some true }

/-- A request carrying only a color transform. -/
def argsCtmOnly : AtomicCommitArgs := { color_matrix := some 3 }

/-- A test-only request carrying a display mode. -/
def argsTestMode : AtomicCommitArgs :=
  { display_mode := some 1, test_only := true }

/-- A request carrying a display mode and a color transform. -/
def argsMC : AtomicCommitArgs :=
  { display_mode := some 1, color_matrix := some 3 }

/-- A two-entry composition plan re-using plane 2 and adding plane 6. -/
def planC : DrmKmsPlan :=
  { plan := [{ plane := 2, layer := { fb := 10 }, z_pos := 0 },
             { plane := 6, layer := { fb := 11 }, z_pos := 1 }] }

/-- A request carrying the plan `planC`. -/
def argsPlan : AtomicCommitArgs := { composition := some planC }

/-- An active engine state with planes 2 and 3 bound. -/
def stPlanes : EngineState :=
  { active_frame_state := { used_planes := [2, 3], crtc_active_state := true } }

/-! ## Claims -/

/-- C1, counterexample: a real (non-test) commit that changes only the
display mode, while the display is already active, is issued with the
nonblocking flag, contradicting the claim that a mode change forces a
blocking commit. -/
theorem c1_counterexample :
    argsModeOnly.display_mode = some 1 ∧ argsModeOnly.test_only = false ∧
    stActive.active_frame_state.crtc_active_state = true ∧
    Event.kernelCommit [PsetOp.outFencePtr, PsetOp.modeBlob 1] false true ∈
      (CommitFrame envOK stActive argsModeOnly).trace := by
  refine ⟨rfl, rfl, rfl, ?_⟩
  decide

/-- C1 (amended): a real (non-test) kernel commit is issued blocking iff
the request carries an active-flag change: either the caller asked for an
active value different from the current one, or the display is currently
inactive (forced activation, which covers the very first commit).  A mode
or color change alone on an active display is issued nonblocking. -/
theorem c1_blocking_iff_active_change (env : Env) (st : EngineState)
    (args : AtomicCommitArgs) (pset : List PsetOp) (nb : Bool)
    (hc : Event.kernelCommit pset false nb ∈ (CommitFrame env st args).trace) :
    (nb = false ↔
      (st.active_frame_state.crtc_active_state = false ∨
       ∃ a, args.active = some a ∧
         a ≠ st.active_frame_state.crtc_active_state)) := by
  obtain ⟨nfs, hb⟩ := commit_event_real hc
  rw [buildPset_nonblock hb, processedArgs_active_isSome st args]

/-- C1 witness: turning the active display off is issued blocking. -/
theorem c1_blocking_iff_active_change_witness :
    (false = false ↔
      (stActive.active_frame_state.crtc_active_state = false ∨
       ∃ a, argsActiveOff.active = some a ∧
         a ≠ stActive.active_frame_state.crtc_active_state)) :=
  c1_blocking_iff_active_change envOK stActive argsActiveOff
    [PsetOp.outFencePtr, PsetOp.active false, PsetOp.crtcId] false (by decide)

/-- C2: on a non-test commit with a prior unconfirmed fence tracked at
submission time, any kernel transaction is preceded by the bounded wait on
that fence and the cleanup of the prior frame (the trace is exactly wait,
cleanup, commit), and the number of unconfirmed frames never grows. -/
theorem c2_drain_before_commit (env : Env) (st : EngineState)
    (args : AtomicCommitArgs) (f : Nat)
    (ht : args.test_only = false) (hf : st.last_present_fence = some f) :
    ((CommitFrame env st args).trace = [] ∨
     ∃ pset nb, (CommitFrame env st args).trace =
        [Event.syncWait f, Event.cleanup, Event.kernelCommit pset false nb]) ∧
    (CommitFrame env st args).state.frames_staged -
        (CommitFrame env st args).state.frames_tracked ≤
      st.frames_staged - st.frames_tracked := by
  rcases CommitFrame_cases env st args with ⟨_, hr⟩ | ⟨_, ⟨e, _, hr⟩ | hok⟩
  · rw [hr]; exact ⟨Or.inl rfl, le_refl _⟩
  · rw [hr]; exact ⟨Or.inl rfl, le_refl _⟩
  · obtain ⟨pset, nfs, nb, hb, ⟨htest, hr⟩ | ⟨_, hfin⟩⟩ := hok
    · rw [ht] at htest
      exact absurd htest (by simp)
    · rcases hfin with ⟨f2, hf2, hr⟩ | ⟨hf2, hr⟩
      · rw [hf] at hf2
        obtain rfl : f = f2 := Option.some.inj hf2
        have hsp := finishCommit_spec env (CleanupPriorFrameResources st) nfs nb
          pset [Event.syncWait f, Event.cleanup] (processedArgs st args)
        refine ⟨Or.inr ⟨pset, nb, ?_⟩, ?_⟩
        · rw [hr, hsp.1]
          rfl
        · rcases hsp.2 with ⟨_, _, hs⟩ | ⟨_, _, ⟨_, hs⟩ | ⟨_, hs⟩⟩ <;>
            rw [hr, hs] <;>
            simp only [CleanupPriorFrameResources] <;> omega
      · rw [hf2] at hf
        exact absurd hf (by simp)

/-- C2 witness: a plane-only commit over a pending fence drains it first. -/
theorem c2_drain_before_commit_witness :
    ((CommitFrame envOK stPend argsComp).trace = [] ∨
     ∃ pset nb, (CommitFrame envOK stPend argsComp).trace =
        [Event.syncWait 5, Event.cleanup, Event.kernelCommit pset false nb]) ∧
    (CommitFrame envOK stPend argsComp).state.frames_staged -
        (CommitFrame envOK stPend argsComp).state.frames_tracked ≤
      stPend.frames_staged - stPend.frames_tracked :=
  c2_drain_before_commit envOK stPend argsComp 5 rfl rfl

/-- C3: a failing non-test commit is followed, inside the same
`ExecuteAtomicCommit` call, by exactly one recovery attempt whose
composition plan is empty and which is not test-only; the original error
is returned whatever the recovery commit does (`envR` is arbitrary, so the
recovery commit may itself fail). -/
theorem c3_recovery_exactly_once (env envR : Env) (st : EngineState)
    (args : AtomicCommitArgs) (ht : args.test_only = false)
    (hf : (CommitFrame env st args).ret ≠ 0) :
    (ExecuteAtomicCommit env envR st args).ret =
        (CommitFrame env st args).ret ∧
    (ExecuteAtomicCommit env envR st args).attempts = [args, clArgs] ∧
    clArgs.composition = some { plan := [] } ∧ clArgs.test_only = false ∧
    (ExecuteAtomicCommit env envR st args).trace =
      (CommitFrame env st args).trace ++
        (CommitFrame envR (CommitFrame env st args).state clArgs).trace := by
  unfold ExecuteAtomicCommit
  simp only []
  rw [if_pos ht, if_pos hf]
  exact ⟨rfl, rfl, rfl, rfl, rfl⟩

/-- C3 witness: a rejected mode-set is retried once with an empty plan. -/
theorem c3_recovery_exactly_once_witness :
    (ExecuteAtomicCommit envFail envOK stActive argsModeOnly).ret =
        (CommitFrame envFail stActive argsModeOnly).ret ∧
    (ExecuteAtomicCommit envFail envOK stActive argsModeOnly).attempts =
        [argsModeOnly, clArgs] :=
  ⟨(c3_recovery_exactly_once envFail envOK stActive argsModeOnly rfl
      (by decide)).1,
   (c3_recovery_exactly_once envFail envOK stActive argsModeOnly rfl
      (by decide)).2.1⟩

/-- C4: a successful build for a request with a composition plan produces
a transaction that is a header followed by one plane-binding entry per plan
entry in order (the first carrying the most-bottom flag, all later ones
not) followed by a disable entry for every plane of the previous active
state's used-plane set that the plan does not re-use. -/
theorem c4_plane_binding (env : Env) (st : EngineState)
    (args : AtomicCommitArgs) (comp : DrmKmsPlan) (pset : List PsetOp)
    (nfs : KmsFrameState) (nb : Bool)
    (hc : args.composition = some comp)
    (h : buildPset env st args = .ok (pset, nfs, nb)) :
    (∃ hdr, pset = hdr ++ planeOps comp.plan true ++
        (st.active_frame_state.used_planes.filter (notInPlan comp.plan)).map
          PsetOp.planeDisable) ∧
    (comp.plan = [] ∧ planeOps comp.plan true = [] ∨
     ∃ j rest, comp.plan = j :: rest ∧
       planeOps comp.plan true =
         PsetOp.planeState j.plane j.layer.fb j.z_pos true ::
           rest.map (fun k =>
             PsetOp.planeState k.plane k.layer.fb k.z_pos false)) := by
  obtain ⟨aops, nfs1, mops, nfs2, cops, nfs3, h1, h2, h3, hrest⟩ :=
    buildPset_ok h
  constructor
  · rcases hrest with ⟨hnone, _, _⟩ |
      ⟨comp2, pset2, nfs4, unused, hsome, h4, h5, _⟩
    · rw [hc] at hnone
      exact absurd hnone (by simp)
    · rw [hc] at hsome
      obtain rfl : comp2 = comp := (Option.some.inj hsome).symm
      obtain ⟨hp2, hu, _, _⟩ := bindPlanes_ok h4
      have hp5 := disablePlanes_ok h5
      have hup1 : nfs1.used_planes = (NewFrameState st).used_planes := by
        rcases activeOps_ok h1 with ⟨_, _, hn, _⟩ | ⟨v, _, _, hn, _⟩ <;>
          rw [hn]
      have hup2 : nfs2.used_planes = nfs1.used_planes := by
        rcases modeOps_ok h2 with ⟨_, _, hn⟩ | ⟨m, _, _, hn⟩ <;> rw [hn]
      have hup3 : nfs3.used_planes = nfs2.used_planes := by
        rcases ctmOps_ok h3 with ⟨_, hn, _⟩ | ⟨c, _, _, _, hn⟩ <;> rw [hn]
      refine ⟨PsetOp.outFencePtr :: (aops ++ mops ++ cops), ?_⟩
      rw [hp5, hp2, hu, hup3, hup2, hup1]
      rfl
  · cases hplan : comp.plan with
    | nil => exact Or.inl ⟨rfl, rfl⟩
    | cons j rest =>
      refine Or.inr ⟨j, rest, rfl, ?_⟩
      unfold planeOps
      rw [planeOps_false rest]

/-- C4 witness: the two-plane plan over planes (2, 3) binds 2 and 6 in
order, bottom-most first, and disables the no-longer-used plane 3. -/
theorem c4_plane_binding_witness :
    (∃ hdr, [PsetOp.outFencePtr, PsetOp.planeState 2 10 0 true,
        PsetOp.planeState 6 11 1 false, PsetOp.planeDisable 3] =
      hdr ++ planeOps planC.plan true ++
        (stPlanes.active_frame_state.used_planes.filter
          (notInPlan planC.plan)).map PsetOp.planeDisable) ∧
    (planC.plan = [] ∧ planeOps planC.plan true = [] ∨
     ∃ j rest, planC.plan = j :: rest ∧
       planeOps planC.plan true =
         PsetOp.planeState j.plane j.layer.fb j.z_pos true ::
           rest.map (fun k =>
             PsetOp.planeState k.plane k.layer.fb k.z_pos false)) :=
  c4_plane_binding envOK stPlanes argsPlan planC
    [PsetOp.outFencePtr, PsetOp.planeState 2 10 0 true,
      PsetOp.planeState 6 11 1 false, PsetOp.planeDisable 3]
    { used_planes := [2, 6], used_framebuffers := [10, 11]
      mode_blob := none, ctm_blob := none, crtc_active_state := true }
    true rfl rfl

/-- C5: while the display is inactive and the request has at least one
actionable change, the request's active flag is forced to true, and every
transaction the call submits contains the activation property. -/
theorem c5_forced_activation (env : Env) (st : EngineState)
    (args : AtomicCommitArgs)
    (hin : st.active_frame_state.crtc_active_state = false)
    (ha : HasInputs (dropSameActive st args) = true) :
    (processedArgs st args).active = some true ∧
    ∀ pset t n, Event.kernelCommit pset t n ∈ (CommitFrame env st args).trace →
      PsetOp.active true ∈ pset := by
  have h1 : (processedArgs st args).active = some true := by
    unfold processedArgs forceActivate
    rw [if_pos hin]
  refine ⟨h1, ?_⟩
  intro pset t n hmem
  obtain ⟨nfs, nb2, hb⟩ := commit_event_pset hmem
  rw [buildPset_active_mem true hb]
  exact h1

/-- C5 witness: a mode-only request on the fresh (inactive) engine forces
activation and the built transaction asserts it. -/
theorem c5_forced_activation_witness :
    (processedArgs stInit argsModeOnly).active = some true ∧
    PsetOp.active true ∈ [PsetOp.outFencePtr, PsetOp.active true,
      PsetOp.crtcId, PsetOp.modeBlob 1] :=
  ⟨(c5_forced_activation envOK stInit argsModeOnly rfl (by decide)).1,
   (c5_forced_activation envOK stInit argsModeOnly rfl (by decide)).2
     [PsetOp.outFencePtr, PsetOp.active true, PsetOp.crtcId,
       PsetOp.modeBlob 1] false false (by decide)⟩

/-- C6: an active flag equal to the current one is dropped, so no
transaction the call builds ever re-asserts the current active value; and
when, after the drop, the request carries no actionable change, the call
returns 0 immediately with the engine state untouched and no external
event. -/
theorem c6_idempotent_active_noop (env : Env) (st : EngineState)
    (args : AtomicCommitArgs) :
    (HasInputs (dropSameActive st args) = false →
      CommitFrame env st args =
        { ret := 0, state := st, trace := []
          argsOut := dropSameActive st args }) ∧
    ∀ pset t n, Event.kernelCommit pset t n ∈ (CommitFrame env st args).trace →
      PsetOp.active st.active_frame_state.crtc_active_state ∉ pset := by
  constructor
  · intro hin
    rcases CommitFrame_cases env st args with ⟨_, hr⟩ | ⟨hin2, _⟩
    · exact hr
    · rw [hin] at hin2
      exact absurd hin2 (by simp)
  · intro pset t n hmem
    obtain ⟨nfs, nb2, hb⟩ := commit_event_pset hmem
    rw [buildPset_active_mem st.active_frame_state.crtc_active_state hb]
    exact processedArgs_active_ne st args

/-- C6 witness: re-asserting the active state is a pure no-op, and a
mode-only transaction never contains the current active value. -/
theorem c6_idempotent_active_noop_witness :
    CommitFrame envOK stActive argsActiveSame =
      { ret := 0, state := stActive, trace := []
        argsOut := dropSameActive stActive argsActiveSame } ∧
    PsetOp.active stActive.active_frame_state.crtc_active_state ∉
      [PsetOp.outFencePtr, PsetOp.modeBlob 1] :=
  ⟨(c6_idempotent_active_noop envOK stActive argsActiveSame).1 (by decide),
   (c6_idempotent_active_noop envOK stActive argsModeOnly).2
     [PsetOp.outFencePtr, PsetOp.modeBlob 1] false true (by decide)⟩

/-- C7: a test-only request never mutates the engine state, only ever
submits with the kernel test flag (never nonblocking), returns the
kernel's status when it reaches the kernel, and never triggers the
recovery commit in `ExecuteAtomicCommit` (exactly one attempt). -/
theorem c7_test_only_no_mutation (env envR : Env) (st : EngineState)
    (args : AtomicCommitArgs) (ht : args.test_only = true) :
    (CommitFrame env st args).state = st ∧
    (∀ e ∈ (CommitFrame env st args).trace,
       ∃ pset, e = Event.kernelCommit pset true false) ∧
    ((CommitFrame env st args).trace ≠ [] →
       (CommitFrame env st args).ret = env.testCommitRet) ∧
    (ExecuteAtomicCommit env envR st args).attempts = [args] ∧
    (ExecuteAtomicCommit env envR st args).ret =
      (CommitFrame env st args).ret := by
  have hEAC : (ExecuteAtomicCommit env envR st args).attempts = [args] ∧
      (ExecuteAtomicCommit env envR st args).ret =
        (CommitFrame env st args).ret := by
    unfold ExecuteAtomicCommit
    simp only []
    rw [if_neg (by simp [ht])]
    exact ⟨rfl, rfl⟩
  rcases CommitFrame_cases env st args with ⟨_, hr⟩ | ⟨_, ⟨e, _, hr⟩ | hok⟩
  · refine ⟨?_, ?_, ?_, hEAC.1, hEAC.2⟩
    · rw [hr]
    · rw [hr]; simp
    · rw [hr]; simp
  · refine ⟨?_, ?_, ?_, hEAC.1, hEAC.2⟩
    · rw [hr]
    · rw [hr]; simp
    · rw [hr]; simp
  · obtain ⟨pset, nfs, nb, hb, ⟨_, hr⟩ | ⟨htest, _⟩⟩ := hok
    · refine ⟨?_, ?_, ?_, hEAC.1, hEAC.2⟩
      · rw [hr]
      · rw [hr]
        intro e he
        simp only [List.mem_cons, List.not_mem_nil, or_false] at he
        exact ⟨pset, he⟩
      · intro _
        rw [hr]
    · rw [ht] at htest
      exact absurd htest (by simp)

/-- C7 witness: a test-only mode request leaves the engine untouched and
is attempted exactly once. -/
theorem c7_test_only_no_mutation_witness :
    (CommitFrame envOK stActive argsTestMode).state = stActive ∧
    (ExecuteAtomicCommit envOK envOK stActive argsTestMode).attempts =
      [argsTestMode] :=
  ⟨(c7_test_only_no_mutation envOK envOK stActive argsTestMode rfl).1,
   (c7_test_only_no_mutation envOK envOK stActive argsTestMode rfl).2.2.2.1⟩

/-- C8, counterexample: when the CRTC exposes no color-transform property,
a request carrying a color transform succeeds without registering any
color-matrix descriptor and without a matching transaction property,
contradicting the claim that every color-transform request registers the
object and adds the property (or aborts). -/
theorem c8_counterexample :
    argsCtmOnly.color_matrix = some 3 ∧
    (CommitFrame envNoCtm stActive argsCtmOnly).ret = 0 ∧
    Event.kernelCommit [PsetOp.outFencePtr] false true ∈
      (CommitFrame envNoCtm stActive argsCtmOnly).trace ∧
    PsetOp.ctmBlob 3 ∉ [PsetOp.outFencePtr] ∧
    (CommitFrame envNoCtm stActive
        argsCtmOnly).state.staged_frame_state.ctm_blob = none := by
  refine ⟨rfl, ?_, ?_, ?_, ?_⟩ <;> decide

/-- C8 (amended): a requested display mode is always registered as a blob
recorded in the new frame state and added to the transaction; a requested
color transform is registered and added only when the CRTC exposes a
color-transform property (otherwise it is silently ignored); a blob
creation failure makes the whole build fail, and every build failure is an
allocation (-12) or validation (-22) error. -/
theorem c8_mode_ctm_registration (env : Env) (st : EngineState)
    (args : AtomicCommitArgs) :
    (∀ m pset nfs nb, args.display_mode = some m →
       buildPset env st args = .ok (pset, nfs, nb) →
       PsetOp.modeBlob m ∈ pset ∧ nfs.mode_blob = some m) ∧
    (∀ m, args.display_mode = some m → env.modeBlobOk = false →
       ∀ x, buildPset env st args ≠ .ok x) ∧
    (∀ c pset nfs nb, args.color_matrix = some c →
       env.hasCtmProperty = true →
       buildPset env st args = .ok (pset, nfs, nb) →
       PsetOp.ctmBlob c ∈ pset ∧ nfs.ctm_blob = some c) ∧
    (∀ c, args.color_matrix = some c → env.hasCtmProperty = true →
       env.ctmBlobOk = false → ∀ x, buildPset env st args ≠ .ok x) ∧
    (∀ e, buildPset env st args = .error e → e = -12 ∨ e = -22) := by
  refine ⟨?_, ?_, ?_, ?_, fun e he => buildPset_error he⟩
  · intro m pset nfs nb hm h
    obtain ⟨aops, nfs1, mops, nfs2, cops, nfs3, h1, h2, h3, hrest⟩ :=
      buildPset_ok h
    rcases modeOps_ok h2 with ⟨hnone, _, _⟩ | ⟨m2, hm2, hops, hn2⟩
    · rw [hm] at hnone
      exact absurd hnone (by simp)
    · rw [hm] at hm2
      have hm12 : m2 = m := (Option.some.inj hm2).symm
      rw [hm12] at hops hn2
      have hmem : PsetOp.modeBlob m ∈ aops ++ mops ++ cops :=
        List.mem_append.mpr (Or.inl (List.mem_append.mpr (Or.inr
          (by rw [hops]; exact List.mem_singleton.mpr rfl))))
      have hblob2 : nfs2.mode_blob = some m := by rw [hn2]
      have hblob3 : nfs3.mode_blob = some m := by
        rcases ctmOps_ok h3 with ⟨_, hn, _⟩ | ⟨c, _, _, _, hn⟩ <;>
          rw [hn] <;> exact hblob2
      rcases hrest with ⟨_, hp, hnfs⟩ |
        ⟨comp, pset2, nfs4, unused, _, h4, h5, hnfs⟩
      · refine ⟨?_, ?_⟩
        · rw [hp]
          exact List.mem_cons.mpr (Or.inr hmem)
        · rw [hnfs]; exact hblob3
      · obtain ⟨hp2, _, hmb, _⟩ := bindPlanes_ok h4
        have hp5 := disablePlanes_ok h5
        refine ⟨?_, ?_⟩
        · rw [hp5, hp2]
          exact List.mem_append.mpr (Or.inl (List.mem_append.mpr (Or.inl
            (List.mem_cons.mpr (Or.inr hmem)))))
        · rw [hnfs, hmb]
          exact hblob3
  · intro m hm hbf x h
    obtain ⟨p, n, b⟩ := x
    obtain ⟨aops, nfs1, mops, nfs2, cops, nfs3, h1, h2, _, _⟩ :=
      buildPset_ok h
    rw [modeOps_fail hm hbf] at h2
    exact absurd h2 (by simp)
  · intro c pset nfs nb hc hp h
    obtain ⟨aops, nfs1, mops, nfs2, cops, nfs3, h1, h2, h3, hrest⟩ :=
      buildPset_ok h
    rcases ctmOps_ok h3 with ⟨_, _, hbad⟩ | ⟨c2, hc2, _, hops, hn3⟩
    · rcases hbad with hbad | hbad
      · rw [hc] at hbad
        exact absurd hbad (by simp)
      · rw [hp] at hbad
        exact absurd hbad (by simp)
    · rw [hc] at hc2
      have hc12 : c2 = c := (Option.some.inj hc2).symm
      rw [hc12] at hops hn3
      have hmem : PsetOp.ctmBlob c ∈ aops ++ mops ++ cops :=
        List.mem_append.mpr (Or.inr
          (by rw [hops]; exact List.mem_singleton.mpr rfl))
      have hblob3 : nfs3.ctm_blob = some c := by rw [hn3]
      rcases hrest with ⟨_, hp2, hnfs⟩ |
        ⟨comp, pset2, nfs4, unused, _, h4, h5, hnfs⟩
      · refine ⟨?_, ?_⟩
        · rw [hp2]
          exact List.mem_cons.mpr (Or.inr hmem)
        · rw [hnfs]; exact hblob3
      · obtain ⟨hpx, _, _, hcb⟩ := bindPlanes_ok h4
        have hp5 := disablePlanes_ok h5
        refine ⟨?_, ?_⟩
        · rw [hp5, hpx]
          exact List.mem_append.mpr (Or.inl (List.mem_append.mpr (Or.inl
            (List.mem_cons.mpr (Or.inr hmem)))))
        · rw [hnfs, hcb]
          exact hblob3
  · intro c hc hp hbf x h
    obtain ⟨p, n, b⟩ := x
    obtain ⟨aops, nfs1, mops, nfs2, cops, nfs3, h1, h2, h3, _⟩ :=
      buildPset_ok h
    rw [ctmOps_fail hc hp hbf] at h3
    exact absurd h3 (by simp)

/-- C8 witness: a mode and a color transform are both registered and both
properties appear in the transaction when the CTM property exists. -/
theorem c8_mode_ctm_registration_witness :
    (PsetOp.modeBlob 1 ∈
        [PsetOp.outFencePtr, PsetOp.modeBlob 1, PsetOp.ctmBlob 3] ∧
      KmsFrameState.mode_blob
        { used_planes := [], used_framebuffers := []
          mode_blob := some 1, ctm_blob := some 3
          crtc_active_state := true } = some 1) ∧
    (PsetOp.ctmBlob 3 ∈
        [PsetOp.outFencePtr, PsetOp.modeBlob 1, PsetOp.ctmBlob 3] ∧
      KmsFrameState.ctm_blob
        { used_planes := [], used_framebuffers := []
          mode_blob := some 1, ctm_blob := some 3
          crtc_active_state := true } = some 3) :=
  ⟨(c8_mode_ctm_registration envOK stActive argsMC).1 1
      [PsetOp.outFencePtr, PsetOp.modeBlob 1, PsetOp.ctmBlob 3]
      { used_planes := [], used_framebuffers := []
        mode_blob := some 1, ctm_blob := some 3
        crtc_active_state := true } true rfl rfl,
   (c8_mode_ctm_registration envOK stActive argsMC).2.2.1 3
      [PsetOp.outFencePtr, PsetOp.modeBlob 1, PsetOp.ctmBlob 3]
      { used_planes := [], used_framebuffers := []
        mode_blob := some 1, ctm_blob := some 3
        crtc_active_state := true } true rfl rfl rfl⟩

/-- C9, counterexample: with a prior unconfirmed fence pending, a kernel
rejection of the new commit still returns the error after the prior
frame's cleanup has run, so the tracked counter, active/staged states and
tracked fence are NOT exactly as they were before the call. -/
theorem c9_counterexample :
    (CommitFrame envFail stPend argsComp).ret = -22 ∧
    stPend.frames_tracked = 0 ∧
    (CommitFrame envFail stPend argsComp).state.frames_tracked = 1 ∧
    (CommitFrame envFail stPend argsComp).state ≠ stPend := by
  refine ⟨?_, rfl, ?_, ?_⟩ <;> decide

/-- C9 (amended): every failing path of `CommitFrame` returns the error
with the engine state exactly unchanged, except that when the kernel
rejects a real commit while a prior unconfirmed fence was pending, the
already-performed cleanup of that prior frame (staged state promoted,
fence cleared, tracked counter incremented) persists; the new frame's own
changes are never applied on failure. -/
theorem c9_failure_leaves_state (env : Env) (st : EngineState)
    (args : AtomicCommitArgs)
    (h : (CommitFrame env st args).ret ≠ 0) :
    (CommitFrame env st args).state = st ∨
    (st.last_present_fence.isSome = true ∧
     (CommitFrame env st args).state = CleanupPriorFrameResources st) := by
  rcases CommitFrame_cases env st args with ⟨_, hr⟩ | ⟨_, ⟨e, _, hr⟩ | hok⟩
  · rw [hr] at h
    exact absurd rfl h
  · exact Or.inl (by rw [hr])
  · obtain ⟨pset, nfs, nb, hb, ⟨_, hr⟩ | ⟨_, hfin⟩⟩ := hok
    · exact Or.inl (by rw [hr])
    · rcases hfin with ⟨f, hf, hr⟩ | ⟨hf, hr⟩
      · rcases (finishCommit_spec env (CleanupPriorFrameResources st) nfs nb
            pset [Event.syncWait f, Event.cleanup]
            (processedArgs st args)).2 with
          ⟨_, _, hs⟩ | ⟨_, hret, _⟩
        · refine Or.inr ⟨by rw [hf]; rfl, ?_⟩
          rw [hr, hs]
        · rw [hr] at h
          exact absurd hret h
      · rcases (finishCommit_spec env st nfs nb pset []
            (processedArgs st args)).2 with
          ⟨_, _, hs⟩ | ⟨_, hret, _⟩
        · exact Or.inl (by rw [hr, hs])
        · rw [hr] at h
          exact absurd hret h

/-- C9 witness: the rejected commit over a pending fence lands in the
cleanup-persisted case. -/
theorem c9_failure_leaves_state_witness :
    (CommitFrame envFail stPend argsComp).state = stPend ∨
    (stPend.last_present_fence.isSome = true ∧
     (CommitFrame envFail stPend argsComp).state =
       CleanupPriorFrameResources stPend) :=
  c9_failure_leaves_state envFail stPend argsComp (by decide)

/-- C10: in every interleaving of commit calls and tracker steps from the
initial state, `CleanupPriorFrameResources` is only ever entered with its
assertions (exactly one unconfirmed frame, a tracked fence) true — the
instrumented run never faults — and whenever its precondition holds it
moves the staged frame state into the active slot, clears the tracked
fence, and makes the tracked counter equal the staged counter. -/
theorem c10_cleanup_assertions (cmds : List Cmd) :
    (∃ s2, runT trackInit cmds = some s2) ∧
    (∀ st : EngineState, cleanupOk st = true →
      (CleanupPriorFrameResources st).active_frame_state =
          st.staged_frame_state ∧
      (CleanupPriorFrameResources st).last_present_fence = none ∧
      (CleanupPriorFrameResources st).frames_tracked = st.frames_staged) := by
  constructor
  · obtain ⟨s2, hs, _⟩ := runT_inv cmds trackInit trackInit_inv
    exact ⟨s2, hs⟩
  · intro st hok
    refine ⟨rfl, rfl, ?_⟩
    unfold cleanupOk at hok
    rw [Bool.and_eq_true] at hok
    have h1 : st.frames_staged - st.frames_tracked = 1 := by
      have h2 := hok.1
      rwa [beq_iff_eq] at h2
    simp only [CleanupPriorFrameResources]
    omega

/-- C10 witness: a concrete schedule runs without an assertion fault, and
cleanup on a state satisfying the precondition equalizes the counters. -/
theorem c10_cleanup_assertions_witness :
    (∃ s2, runT trackInit [Cmd.snap, Cmd.clean] = some s2) ∧
    (CleanupPriorFrameResources stPend).frames_tracked =
      stPend.frames_staged :=
  ⟨(c10_cleanup_assertions [Cmd.snap, Cmd.clean]).1,
   ((c10_cleanup_assertions []).2 stPend (by decide)).2.2⟩

end DrmAtomic
